import Mathlib

/-!
Shallow embedding of the Screen Time Management data layer (`database.py`,
with input validation from `add_entry.py`).

The MySQL table `usage_log` is modelled as a list of rows together with the
auto-increment counter for `entry_id`.  Calendar dates are encoded as natural
numbers in `yyyymmdd` form (so the numeric order agrees with calendar order),
and `hours_spent` (a SQL FLOAT carrying values such as 3.5 that are exact in
binary floating point) is modelled as a rational number.

Each Python function issues a sequence of SQL statements; we embed a statement
as a `Stmt` and its effect on the store as `execStmt` (a `SELECT` does not
modify the table, an `INSERT` appends a fresh row, a `DELETE` removes the rows
matching the id).  Each operation returns its result paired with the store
produced by executing its statements.
-/

namespace ScreenTime

/-- A row of the `usage_log` table: columns `entry_id`, `entry_date`,
`category`, `hours_spent`, `remarks` (the `created_at` timestamp column is
never read by any operation and is omitted). -/
structure UsageEntry where
  entry_id : Nat
  entry_date : Nat
  category : String
  hours_spent : ℚ
  remarks : String
deriving DecidableEq

/-- The database state: the rows of `usage_log` plus the auto-increment
counter used for the next `entry_id`. -/
structure Store where
  rows : List UsageEntry
  nextId : Nat
deriving DecidableEq

/-- A freshly initialized database: no rows, auto-increment starts at 1. -/
def emptyStore : Store := ⟨[], 1⟩

/-- One SQL statement, as issued by the functions in `database.py`. -/
inductive Stmt where
  | selectQ
  | insertQ (entry_date : Nat) (category : String) (hours_spent : ℚ) (remarks : String)
  | deleteQ (entry_id : Nat)

/-- Effect of one statement on the store: a `SELECT` leaves the table
unchanged, an `INSERT` appends a row with the fresh auto-increment id, a
`DELETE ... WHERE entry_id = i` removes the matching rows. -/
def execStmt (s : Store) : Stmt → Store
  | .selectQ => s
  | .insertQ d c h r => ⟨s.rows ++ [⟨s.nextId, d, c, h, r⟩], s.nextId + 1⟩
  | .deleteQ i => ⟨s.rows.filter (fun e => decide (e.entry_id ≠ i)), s.nextId⟩

/-- Effect of a sequence of statements (one transaction), in order. -/
def execStmts (s : Store) (l : List Stmt) : Store := l.foldl execStmt s

/-- The ordering `ORDER BY entry_date DESC, entry_id DESC` used by
`get_all_entries`. -/
def newerFirst (a b : UsageEntry) : Prop :=
  b.entry_date < a.entry_date ∨ (a.entry_date = b.entry_date ∧ b.entry_id ≤ a.entry_id)

instance : DecidableRel newerFirst := fun a b =>
  decidable_of_iff
    (b.entry_date < a.entry_date ∨ (a.entry_date = b.entry_date ∧ b.entry_id ≤ a.entry_id))
    Iff.rfl

instance : IsTotal UsageEntry newerFirst :=
  ⟨fun a b => by unfold newerFirst; omega⟩

instance : IsTrans UsageEntry newerFirst :=
  ⟨fun a b c hab hbc => by unfold newerFirst at hab hbc ⊢; omega⟩

/-- The ordering `ORDER BY entry_date DESC` used by
`get_date_range_entries`. -/
def dateDescLe (a b : UsageEntry) : Prop := b.entry_date ≤ a.entry_date

instance : DecidableRel dateDescLe := fun a b =>
  decidable_of_iff (b.entry_date ≤ a.entry_date) Iff.rfl

instance : IsTotal UsageEntry dateDescLe :=
  ⟨fun a b => by unfold dateDescLe; omega⟩

instance : IsTrans UsageEntry dateDescLe :=
  ⟨fun a b c hab hbc => by unfold dateDescLe at hab hbc ⊢; omega⟩

/-- The ordering `ORDER BY total_hours DESC` used by `get_category_totals`
on `(category, total_hours)` result rows. -/
def totalDesc (p q : String × ℚ) : Prop := q.2 ≤ p.2

instance : DecidableRel totalDesc := fun p q =>
  decidable_of_iff (q.2 ≤ p.2) Iff.rfl

instance : IsTotal (String × ℚ) totalDesc :=
  ⟨fun p q => by unfold totalDesc; exact le_total q.2 p.2⟩

instance : IsTrans (String × ℚ) totalDesc :=
  ⟨fun p q u hpq hqu => by unfold totalDesc at hpq hqu ⊢; exact le_trans hqu hpq⟩

/-- `INSERT INTO usage_log ... VALUES ...` as performed by
`database.add_entry`: the function runs the insert, commits, and reports
`(True, "Entry added successfully!")`.  It performs no input validation. -/
def add_entry (s : Store) (entry_date : Nat) (category : String)
    (hours_spent : ℚ) (remarks : String) : (Bool × String) × Store :=
  ((true, "Entry added successfully!"),
   execStmts s [.insertQ entry_date category hours_spent remarks])

/-- `database.delete_entry`: deletes the rows with the given id, then reports
success exactly when the affected row count is positive. -/
def delete_entry (s : Store) (entry_id : Nat) : (Bool × String) × Store :=
  ((if 0 < s.rows.countP (fun e => decide (e.entry_id = entry_id)) then
      (true, "Entry deleted successfully!")
    else
      (false, "Entry not found.")),
   execStmts s [.deleteQ entry_id])

/-- `database.get_all_entries`: `SELECT ... FROM usage_log ORDER BY
entry_date DESC, entry_id DESC`. -/
def get_all_entries (s : Store) : List UsageEntry × Store :=
  (List.insertionSort newerFirst s.rows, execStmts s [.selectQ])

/-- `database.get_date_range_entries`: `SELECT ... WHERE entry_date BETWEEN
start AND end ORDER BY entry_date DESC` (`BETWEEN` is inclusive at both
endpoints). -/
def get_date_range_entries (s : Store) (start_date end_date : Nat) :
    List UsageEntry × Store :=
  (List.insertionSort dateDescLe
     (s.rows.filter (fun e =>
        decide (start_date ≤ e.entry_date ∧ e.entry_date ≤ end_date))),
   execStmts s [.selectQ])

/-- The distinct `entry_date` values present in the table (the groups of
`GROUP BY entry_date`). -/
def rowDates (rows : List UsageEntry) : List Nat :=
  (rows.map (fun e => e.entry_date)).dedup

/-- `SUM(hours_spent)` over the rows of one `entry_date` group. -/
def dayTotal (rows : List UsageEntry) (d : Nat) : ℚ :=
  ((rows.filter (fun e => decide (e.entry_date = d))).map
    (fun e => e.hours_spent)).sum

/-- `database.get_daily_totals`: `SELECT entry_date, SUM(hours_spent) ...
GROUP BY entry_date ORDER BY entry_date` (ascending). -/
def get_daily_totals (s : Store) : List (Nat × ℚ) × Store :=
  ((List.insertionSort (· ≤ ·) (rowDates s.rows)).map
     (fun d => (d, dayTotal s.rows d)),
   execStmts s [.selectQ])

/-- The distinct `category` values present in the table (the groups of
`GROUP BY category`). -/
def rowCategories (rows : List UsageEntry) : List String :=
  (rows.map (fun e => e.category)).dedup

/-- `SUM(hours_spent)` over the rows of one `category` group. -/
def categoryTotal (rows : List UsageEntry) (c : String) : ℚ :=
  ((rows.filter (fun e => decide (e.category = c))).map
    (fun e => e.hours_spent)).sum

/-- `database.get_category_totals`: `SELECT category, SUM(hours_spent) ...
GROUP BY category ORDER BY total_hours DESC`. -/
def get_category_totals (s : Store) : List (String × ℚ) × Store :=
  (List.insertionSort totalDesc
     ((rowCategories s.rows).map (fun c => (c, categoryTotal s.rows c))),
   execStmts s [.selectQ])

/-- `SUM(hours_spent)` over the whole table. -/
def totalHours (rows : List UsageEntry) : ℚ :=
  (rows.map (fun e => e.hours_spent)).sum

/-- The result dictionary of `database.get_statistics`. -/
structure Stats where
  total_hours : ℚ
  total_entries : Nat
  avg_daily_hours : ℚ
  first_date : Option Nat
  last_date : Option Nat
deriving DecidableEq

/-- `database.get_statistics`: four `SELECT` queries computing
`SUM(hours_spent)`, `COUNT(*)`, `AVG(daily_total)` over the per-day group
sums, and `MIN`/`MAX` of `entry_date`.  A NULL aggregate (empty table) is
turned into 0 by the `or 0` fallbacks in the Python code; `AVG` over the
grouped subquery is the sum of the per-day sums divided by the number of
distinct dates. -/
def get_statistics (s : Store) : Stats × Store :=
  ({ total_hours := totalHours s.rows,
     total_entries := s.rows.length,
     avg_daily_hours :=
       if (rowDates s.rows).length = 0 then 0
       else ((rowDates s.rows).map (dayTotal s.rows)).sum /
            ((rowDates s.rows).length : ℚ),
     first_date := (s.rows.map (fun e => e.entry_date)).min?,
     last_date := (s.rows.map (fun e => e.entry_date)).max? },
   execStmts s [.selectQ, .selectQ, .selectQ, .selectQ])

/-- The input-validation core of `prompt_entry` in `add_entry.py`, on values
that already parsed (the raw-string concerns — `strptime` date parsing,
`float` parsing, whitespace stripping — are outside the embedding): the
category must be non-empty and the hours must lie in [0, 24]; on a violation
the function returns `None`, so `insert_entry` is never called and nothing is
persisted. -/
def prompt_entry_check (entry_date : Nat) (category : String) (hours : ℚ)
    (remarks : String) : Option (Nat × String × ℚ × String) :=
  if category = "" then none
  else if hours < 0 ∨ hours > 24 then none
  else some (entry_date, category, hours, remarks)

/-- The arithmetic mean of a list of rationals (0 on the empty list, since
in `ℚ` division by zero yields 0). -/
def listMean (l : List ℚ) : ℚ := l.sum / (l.length : ℚ)

/-- The worked example of the specification: entries
(2025-11-01, Study, 3.5), (2025-11-01, Social Media, 2.0),
(2025-11-02, Gaming, 4.0). -/
def exampleStore : Store :=
  ⟨[⟨1, 20251101, "Study", 7/2, "Online classes"⟩,
    ⟨2, 20251101, "Social Media", 2, "Instagram and Twitter"⟩,
    ⟨3, 20251102, "Gaming", 4, "Weekend gaming session"⟩], 4⟩

/-- A small store with two rows on two dates, used to instantiate the
universally quantified theorems at concrete inputs. -/
def twoRowStore : Store :=
  ⟨[⟨1, 20251101, "Study", 2, ""⟩,
    ⟨2, 20251102, "Gaming", 4, ""⟩], 3⟩

/-! ## Helper lemmas -/

/-- Summing a pointwise sum of two functions over a list splits into two
sums. -/
lemma sum_map_add_q {α : Type} (l : List α) (f g : α → ℚ) :
    (l.map (fun x => f x + g x)).sum = (l.map f).sum + (l.map g).sum := by
  induction l with
  | nil => simp
  | cons a t ih => simp [ih]; ring

/-- Over a duplicate-free list containing `a`, the sum of
`if a = d then x else 0` is exactly `x`. -/
lemma sum_map_ite_of_mem {ds : List Nat} {a : Nat} (x : ℚ) (hnd : ds.Nodup)
    (ha : a ∈ ds) :
    (ds.map (fun d => if a = d then x else 0)).sum = x := by
  induction ds with
  | nil => cases ha
  | cons b t ih =>
    rcases List.nodup_cons.mp hnd with ⟨hb, ht⟩
    rcases List.mem_cons.mp ha with hab | hat
    · subst hab
      have hz : (t.map (fun d => if a = d then x else 0)).sum = 0 := by
        apply List.sum_eq_zero
        intro y hy
        rcases List.mem_map.mp hy with ⟨d, hd, rfl⟩
        have hne : a ≠ d := fun had => hb (had ▸ hd)
        simp [hne]
      simp [hz]
    · have hab : a ≠ b := fun h2 => hb (h2 ▸ hat)
      simp [hab, ih ht hat]

/-- Splitting one row off the table splits its contribution out of every
per-day group sum. -/
lemma dayTotal_cons (e : UsageEntry) (rest : List UsageEntry) (d : Nat) :
    dayTotal (e :: rest) d =
      (if e.entry_date = d then e.hours_spent else 0) + dayTotal rest d := by
  by_cases hd : e.entry_date = d
  · simp [dayTotal, List.filter_cons, hd]
  · simp [dayTotal, List.filter_cons, hd]

/-- Partitioning the table by any duplicate-free list of dates covering all
rows: the per-day group sums add up to the total of the whole table. -/
lemma sum_dayTotal (rows : List UsageEntry) (ds : List Nat) (hnd : ds.Nodup)
    (hmem : ∀ e ∈ rows, e.entry_date ∈ ds) :
    (ds.map (dayTotal rows)).sum = totalHours rows := by
  induction rows with
  | nil =>
    have hz : ∀ x ∈ ds.map (dayTotal []), x = 0 := by
      intro x hx
      rcases List.mem_map.mp hx with ⟨d, _, rfl⟩
      simp [dayTotal]
    simp [totalHours, List.sum_eq_zero hz]
  | cons e rest ih =>
    have hfun : dayTotal (e :: rest) =
        fun d => (if e.entry_date = d then e.hours_spent else 0) + dayTotal rest d :=
      funext (dayTotal_cons e rest)
    have hsplit := sum_map_add_q ds
      (fun d => if e.entry_date = d then e.hours_spent else 0)
      (fun d => dayTotal rest d)
    rw [hfun, hsplit,
      sum_map_ite_of_mem e.hours_spent hnd (hmem e (List.mem_cons_self e rest)),
      ih (fun x hx => hmem x (List.mem_cons_of_mem e hx))]
    simp [totalHours]

/-! ## Claim theorems -/

/-- C1 (counterexample): contrary to the claim, `database.add_entry` does
not reject hours outside [0, 24]: called with hours = 25 it reports success
and the out-of-range entry is persisted, so the store is changed. -/
theorem add_entry_hours_25_persists :
    (add_entry emptyStore 20251101 "Study" 25 "").1 =
      (true, "Entry added successfully!")
    ∧ (⟨1, 20251101, "Study", 25, ""⟩ : UsageEntry) ∈
        ((add_entry emptyStore 20251101 "Study" 25 "").2).rows
    ∧ ((add_entry emptyStore 20251101 "Study" 25 "").2).rows ≠ emptyStore.rows :=
  ⟨rfl, by decide, by decide⟩

/-- C1 (amended): the store-level `add_entry` performs no validation — it
persists any entry and returns a success flag and message rather than an id —
while the input validation of hours ∈ [0, 24] and non-empty category lives in
the caller `prompt_entry` (add_entry.py), which rejects bad input by returning
`None` before any persistence attempt; there hours = 25 is rejected and
hours = 0 is accepted. -/
theorem add_entry_validation_in_caller (s : Store) (d : Nat) (c : String)
    (h : ℚ) (r : String) :
    (add_entry s d c h r).1 = (true, "Entry added successfully!")
    ∧ ((add_entry s d c h r).2).rows = s.rows ++ [⟨s.nextId, d, c, h, r⟩]
    ∧ (prompt_entry_check d c h r = none ↔ (c = "" ∨ h < 0 ∨ h > 24))
    ∧ prompt_entry_check d c 25 r = none
    ∧ (c ≠ "" → prompt_entry_check d c 0 r = some (d, c, 0, r)) := by
  refine ⟨rfl, rfl, ?_, ?_, ?_⟩
  · unfold prompt_entry_check
    split_ifs with h1 h2
    · simp [h1]
    · simp [h1, h2]
    · simp [h1, h2]
  · unfold prompt_entry_check
    split_ifs with h1 h2
    · rfl
    · rfl
    · exact absurd (Or.inr (by norm_num)) h2
  · intro hc
    unfold prompt_entry_check
    rw [if_neg hc, if_neg (by norm_num : ¬((0 : ℚ) < 0 ∨ (0 : ℚ) > 24))]

/-- C1 (witness for the amended theorem): a concrete valid input, hours = 0,
passes the caller-side validation. -/
theorem add_entry_validation_in_caller_witness :
    prompt_entry_check 20251101 "Study" 0 "" = some (20251101, "Study", 0, "") :=
  (add_entry_validation_in_caller emptyStore 20251101 "Study" 0 "").2.2.2.2
    (by decide)

/-- C3: `delete_entry` reports true exactly when a row with the given id
existed; the surviving rows are exactly the previous rows with a different
id (so the deleted id disappears from later `get_all_entries` results), and
a second call on the same id reports false. -/
theorem delete_entry_spec (s : Store) (i : Nat) :
    ((delete_entry s i).1.1 = true ↔ ∃ e ∈ s.rows, e.entry_id = i)
    ∧ (∀ e, e ∈ ((delete_entry s i).2).rows ↔ (e ∈ s.rows ∧ e.entry_id ≠ i))
    ∧ (delete_entry ((delete_entry s i).2) i).1.1 = false
    ∧ (∀ e, e ∈ (get_all_entries ((delete_entry s i).2)).1 ↔
        (e ∈ s.rows ∧ e.entry_id ≠ i)) := by
  have hmem : ∀ e, e ∈ ((delete_entry s i).2).rows ↔
      (e ∈ s.rows ∧ e.entry_id ≠ i) := by
    intro e
    simp [delete_entry, execStmts, execStmt, List.mem_filter]
  refine ⟨?_, hmem, ?_, ?_⟩
  · by_cases hp : 0 < s.rows.countP (fun e => decide (e.entry_id = i))
    · rw [List.countP_pos_iff] at hp
      simp only [delete_entry, if_pos (List.countP_pos_iff.mpr hp)]
      simpa using hp
    · rw [List.countP_pos_iff] at hp
      simp only [delete_entry,
        if_neg (fun hq => hp (List.countP_pos_iff.mp hq))]
      simpa using hp
  · have hnone : ¬ ∃ e ∈ (execStmts s [Stmt.deleteQ i]).rows, e.entry_id = i := by
      rintro ⟨e, he, hei⟩
      exact ((hmem e).mp he).2 hei
    simp [delete_entry, hnone]
  · intro e
    have hp : (get_all_entries ((delete_entry s i).2)).1.Perm
        ((delete_entry s i).2).rows := List.perm_insertionSort _ _
    rw [hp.mem_iff]
    exact hmem e

/-- C3 (witness): deleting id 1 from the two-row store keeps the row with
id 2. -/
theorem delete_entry_spec_witness :
    (⟨2, 20251102, "Gaming", 4, ""⟩ : UsageEntry) ∈
      ((delete_entry twoRowStore 1).2).rows :=
  ((delete_entry_spec twoRowStore 1).2.1 _).mpr (by decide)

/-- C4: `get_daily_totals` returns one pair per distinct date present in the
store — a pair belongs to the result exactly when its date occurs in some row
and its value is the sum of `hours_spent` over the rows of that date — and
the dates appear in ascending order without duplicates. -/
theorem daily_totals_spec (s : Store) :
    (((get_daily_totals s).1.map Prod.fst).Nodup)
    ∧ (∀ p : Nat × ℚ, p ∈ (get_daily_totals s).1 ↔
        ((∃ e ∈ s.rows, e.entry_date = p.1) ∧ p.2 = dayTotal s.rows p.1))
    ∧ List.Sorted (· ≤ ·) ((get_daily_totals s).1.map Prod.fst) := by
  have hfst : (get_daily_totals s).1.map Prod.fst =
      List.insertionSort (· ≤ ·) (rowDates s.rows) := by
    simp [get_daily_totals, List.map_map, Function.comp_def]
  have hperm : (List.insertionSort (· ≤ ·) (rowDates s.rows)).Perm
      (rowDates s.rows) := List.perm_insertionSort _ _
  have hdate : ∀ d : Nat, d ∈ rowDates s.rows ↔ ∃ e ∈ s.rows, e.entry_date = d := by
    intro d
    unfold rowDates
    rw [List.mem_dedup, List.mem_map]
  refine ⟨?_, ?_, ?_⟩
  · rw [hfst]
    exact hperm.nodup_iff.mpr (List.nodup_dedup _)
  · intro p
    constructor
    · intro hp
      rcases List.mem_map.mp hp with ⟨d, hd, rfl⟩
      exact ⟨(hdate d).mp (hperm.mem_iff.mp hd), rfl⟩
    · rintro ⟨hex, hval⟩
      have hd : p.1 ∈ List.insertionSort (· ≤ ·) (rowDates s.rows) :=
        hperm.mem_iff.mpr ((hdate p.1).mpr hex)
      refine List.mem_map.mpr ⟨p.1, hd, ?_⟩
      exact Prod.ext rfl hval.symm
  · rw [hfst]
    exact List.sorted_insertionSort _ _

/-- C4 (witness): in the two-row store the date 2025-11-01 appears with
total 2. -/
theorem daily_totals_spec_witness :
    ((20251101 : Nat), (2 : ℚ)) ∈ (get_daily_totals twoRowStore).1 :=
  ((daily_totals_spec twoRowStore).2.1 _).mpr
    ⟨⟨⟨1, 20251101, "Study", 2, ""⟩, by decide, rfl⟩,
     by norm_num [dayTotal, twoRowStore, List.filter_cons]⟩

/-- C7: `get_category_totals` returns one pair per distinct category — a
pair belongs to the result exactly when its category occurs in some row and
its value is the sum of `hours_spent` over the rows of that category — and
the pairs appear in descending order of total hours. -/
theorem category_totals_spec (s : Store) :
    (((get_category_totals s).1.map Prod.fst).Nodup)
    ∧ (∀ p : String × ℚ, p ∈ (get_category_totals s).1 ↔
        ((∃ e ∈ s.rows, e.category = p.1) ∧ p.2 = categoryTotal s.rows p.1))
    ∧ List.Sorted totalDesc (get_category_totals s).1 := by
  have hperm : (get_category_totals s).1.Perm
      ((rowCategories s.rows).map (fun c => (c, categoryTotal s.rows c))) :=
    List.perm_insertionSort _ _
  have hcat : ∀ c : String,
      c ∈ rowCategories s.rows ↔ ∃ e ∈ s.rows, e.category = c := by
    intro c
    unfold rowCategories
    rw [List.mem_dedup, List.mem_map]
  refine ⟨?_, ?_, List.sorted_insertionSort _ _⟩
  · have hfst : ((rowCategories s.rows).map
        (fun c => (c, categoryTotal s.rows c))).map Prod.fst =
        rowCategories s.rows := by
      simp [List.map_map, Function.comp_def]
    have := (hperm.map Prod.fst).nodup_iff
    rw [hfst] at this
    exact this.mpr (List.nodup_dedup _)
  · intro p
    rw [hperm.mem_iff]
    constructor
    · intro hp
      rcases List.mem_map.mp hp with ⟨c, hc, rfl⟩
      exact ⟨(hcat c).mp hc, rfl⟩
    · rintro ⟨hex, hval⟩
      refine List.mem_map.mpr ⟨p.1, (hcat p.1).mpr hex, ?_⟩
      exact Prod.ext rfl hval.symm

/-- C7 (witness): in the two-row store the category Study appears with
total 2. -/
theorem category_totals_spec_witness :
    (("Study" : String), (2 : ℚ)) ∈ (get_category_totals twoRowStore).1 :=
  ((category_totals_spec twoRowStore).2.1 _).mpr
    ⟨⟨⟨1, 20251101, "Study", 2, ""⟩, by decide, rfl⟩,
     by
       rw [categoryTotal]
       norm_num [twoRowStore, List.filter_cons,
         if_neg (by decide : ¬("Gaming" = "Study"))]⟩

/-- C8: `get_all_entries` returns exactly the stored rows ordered newest
first (dates non-increasing), and `get_date_range_entries` returns exactly
the rows whose date lies in the inclusive range, also ordered newest
first. -/
theorem list_entries_spec (s : Store) (lo hi : Nat) :
    ((get_all_entries s).1.Perm s.rows)
    ∧ List.Sorted dateDescLe (get_all_entries s).1
    ∧ ((get_date_range_entries s lo hi).1.Perm
        (s.rows.filter (fun e =>
          decide (lo ≤ e.entry_date ∧ e.entry_date ≤ hi))))
    ∧ (∀ e, e ∈ (get_date_range_entries s lo hi).1 ↔
        (e ∈ s.rows ∧ lo ≤ e.entry_date ∧ e.entry_date ≤ hi))
    ∧ List.Sorted dateDescLe (get_date_range_entries s lo hi).1 := by
  have himp : ∀ {a b : UsageEntry}, newerFirst a b → dateDescLe a b := by
    intro a b hab
    unfold newerFirst at hab
    unfold dateDescLe
    omega
  refine ⟨List.perm_insertionSort _ _, ?_, List.perm_insertionSort _ _, ?_,
    List.sorted_insertionSort _ _⟩
  · exact (List.sorted_insertionSort newerFirst s.rows).imp himp
  · intro e
    have hperm : (get_date_range_entries s lo hi).1.Perm
        (s.rows.filter (fun e =>
          decide (lo ≤ e.entry_date ∧ e.entry_date ≤ hi))) :=
      List.perm_insertionSort _ _
    rw [hperm.mem_iff]
    simp [List.mem_filter]

/-- C8 (witness): filtering the two-row store to the single day 2025-11-01
retains the row of that day. -/
theorem list_entries_spec_witness :
    (⟨1, 20251101, "Study", 2, ""⟩ : UsageEntry) ∈
      (get_date_range_entries twoRowStore 20251101 20251101).1 :=
  ((list_entries_spec twoRowStore 20251101 20251101).2.2.2.1 _).mpr (by decide)

/-- C9: on the empty store, `get_statistics` succeeds and returns zero total
hours, zero entries, zero average daily hours, and absent first and last
dates. -/
theorem statistics_empty_store :
    (get_statistics emptyStore).1 =
      { total_hours := 0, total_entries := 0, avg_daily_hours := 0,
        first_date := none, last_date := none } := rfl

/-- C10: the read operations — full listing, date-range listing, daily
totals, category totals, statistics — only issue SELECT statements and leave
the store unchanged. -/
theorem reads_preserve_store (s : Store) (lo hi : Nat) :
    (get_all_entries s).2 = s
    ∧ (get_date_range_entries s lo hi).2 = s
    ∧ (get_daily_totals s).2 = s
    ∧ (get_category_totals s).2 = s
    ∧ (get_statistics s).2 = s :=
  ⟨rfl, rfl, rfl, rfl, rfl⟩

/-- C10 (witness): concrete instance on the empty store. -/
theorem reads_preserve_store_witness :
    (get_statistics emptyStore).2 = emptyStore :=
  (reads_preserve_store emptyStore 0 0).2.2.2.2

/-- C5: the per-day totals summed over all dates equal the total hours
reported by `get_statistics`. -/
theorem daily_sum_eq_total_hours (s : Store) :
    ((get_daily_totals s).1.map Prod.snd).sum =
      (get_statistics s).1.total_hours := by
  have hsnd : (get_daily_totals s).1.map Prod.snd =
      (List.insertionSort (· ≤ ·) (rowDates s.rows)).map
        (fun d => dayTotal s.rows d) := by
    simp [get_daily_totals, List.map_map, Function.comp_def]
  have hperm : ((List.insertionSort (· ≤ ·) (rowDates s.rows)).map
      (fun d => dayTotal s.rows d)).Perm
      ((rowDates s.rows).map (fun d => dayTotal s.rows d)) :=
    (List.perm_insertionSort _ _).map _
  rw [hsnd, hperm.sum_eq]
  exact sum_dayTotal s.rows (rowDates s.rows) (List.nodup_dedup _)
    (fun e he => by
      unfold rowDates
      rw [List.mem_dedup]
      exact List.mem_map.mpr ⟨e, he, rfl⟩)

/-- C5 (witness): concrete instance on the two-row store. -/
theorem daily_sum_eq_total_hours_witness :
    ((get_daily_totals twoRowStore).1.map Prod.snd).sum =
      (get_statistics twoRowStore).1.total_hours :=
  daily_sum_eq_total_hours twoRowStore

/-- C2: for every store, `avg_daily_hours` reported by `get_statistics` is
the arithmetic mean of the per-day sums returned by `get_daily_totals` (one
term per distinct date); on the worked example of the specification it is
4.75, which differs from the mean of the raw per-entry hours values. -/
theorem avg_daily_hours_spec :
    (∀ s : Store, (get_statistics s).1.avg_daily_hours =
      listMean ((get_daily_totals s).1.map Prod.snd))
    ∧ (get_statistics exampleStore).1.avg_daily_hours = 19/4
    ∧ listMean (exampleStore.rows.map (fun e => e.hours_spent)) ≠ 19/4 := by
  refine ⟨?_, ?_, ?_⟩
  · intro s
    have key : (get_statistics s).1.avg_daily_hours =
        (if (rowDates s.rows).length = 0 then 0
         else ((rowDates s.rows).map (dayTotal s.rows)).sum /
              ((rowDates s.rows).length : ℚ)) := rfl
    have hsnd : (get_daily_totals s).1.map Prod.snd =
        (List.insertionSort (· ≤ ·) (rowDates s.rows)).map
          (fun d => dayTotal s.rows d) := by
      simp [get_daily_totals, List.map_map, Function.comp_def]
    have hperm : ((List.insertionSort (· ≤ ·) (rowDates s.rows)).map
        (fun d => dayTotal s.rows d)).Perm
        ((rowDates s.rows).map (fun d => dayTotal s.rows d)) :=
      (List.perm_insertionSort _ _).map _
    rw [key, hsnd]
    unfold listMean
    rw [hperm.sum_eq, hperm.length_eq, List.length_map]
    by_cases hlen : (rowDates s.rows).length = 0
    · rw [if_pos hlen, hlen]
      norm_num
    · rw [if_neg hlen]
  · norm_num [get_statistics, rowDates, dayTotal, exampleStore, totalHours,
      List.dedup]
  · norm_num [listMean, exampleStore]

/-- C6: after adding a row, the listing contains the newly added entry
exactly once (assuming the auto-increment counter is fresh, as it is in any
store reachable from the empty one, and the input is valid). -/
theorem add_then_list_once (s : Store) (d : Nat) (c : String) (h : ℚ)
    (r : String) (hwf : ∀ e ∈ s.rows, e.entry_id < s.nextId)
    (_hh : 0 ≤ h ∧ h ≤ 24) (_hc : c ≠ "") :
    (get_all_entries ((add_entry s d c h r).2)).1.count
      (⟨s.nextId, d, c, h, r⟩ : UsageEntry) = 1 := by
  have hrows : ((add_entry s d c h r).2).rows =
      s.rows ++ [⟨s.nextId, d, c, h, r⟩] := rfl
  have hperm : (get_all_entries ((add_entry s d c h r).2)).1.Perm
      ((add_entry s d c h r).2).rows := List.perm_insertionSort _ _
  rw [hperm.count_eq, hrows, List.count_append]
  have hnot : (⟨s.nextId, d, c, h, r⟩ : UsageEntry) ∉ s.rows := by
    intro hmemb
    exact lt_irrefl s.nextId (hwf _ hmemb)
  rw [List.count_eq_zero.mpr hnot]
  simp

/-- C6 (witness): adding a valid entry to the empty store and listing shows
it exactly once. -/
theorem add_then_list_once_witness :
    (get_all_entries ((add_entry emptyStore 20251101 "Study" 2 "").2)).1.count
      (⟨1, 20251101, "Study", 2, ""⟩ : UsageEntry) = 1 :=
  add_then_list_once emptyStore 20251101 "Study" 2 "" (by decide)
    (by norm_num) (by decide)

end ScreenTime
